import Mathlib

/-!
Verification of the vibase query execution engine (packages/core).

The definitions below are shallow embeddings of the TypeScript source:
`buildSafeQuery` and `executeQuery` from execute-query.ts, the plugin
registry from plugins.ts, `ConnectionManager` from connection-manager.ts,
and the argument coercion pipeline from mcp-server.ts
(`createZodSchema` / `ToolConfigWithShape.validateArgs`).
-/

namespace Vibase

/-- JS regex word character class `\w`, i.e. `[A-Za-z0-9_]`. -/
def isWordChar (c : Char) : Bool :=
  c.isAlpha || c.isDigit || c == '_'

/-- Models `statement.includes(c)` for a single-character needle. -/
def strIncludesChar (s : String) (c : Char) : Bool :=
  s.data.contains c

/-- Word-boundary test `\b` immediately after a word character: the rest of
the input must be empty or start with a non-word character. -/
def wordBoundary : List Char → Bool
  | [] => true
  | c :: _ => !(isWordChar c)

/-- Scanner for `statement.matchAll(/:(\w+)/g)`: the list of captured names,
left to right, non-overlapping, each name a maximal run of word characters
after a colon.  Fuel-based structural recursion (fuel = input length bounds
the number of steps, each step consumes at least one character). -/
def scanAux : Nat → List Char → List String
  | 0, _ => []
  | _ + 1, [] => []
  | fuel + 1, c :: rest =>
    if c == ':' then
      let name := rest.takeWhile isWordChar
      if name.isEmpty then scanAux fuel rest
      else String.mk name :: scanAux fuel (rest.drop name.length)
    else scanAux fuel rest

/-- All `:(\w+)` match names of a statement, in match order. -/
def scanMatches (l : List Char) : List String :=
  scanAux l.length l

/-- One pass of `sqlStatement.replace(new RegExp(":" + name + "\\b", "g"), "$" + pos)`:
every occurrence of `:name` followed by a word boundary is replaced by the
positional placeholder.  (The replacement regex has no capture groups, so the
`$pos` replacement text is literal.)  Fuel-based structural recursion. -/
def replaceAux (name : List Char) (pos : Nat) : Nat → List Char → List Char
  | 0, l => l
  | _ + 1, [] => []
  | fuel + 1, c :: rest =>
    if c == ':' && name.isPrefixOf rest && wordBoundary (rest.drop name.length) then
      '$' :: (Nat.repr pos).data ++ replaceAux name pos fuel (rest.drop name.length)
    else
      c :: replaceAux name pos fuel rest

/-- Replace every word-boundary-delimited occurrence of `:name` by `$pos`. -/
def replaceNamed (name : List Char) (pos : Nat) (l : List Char) : List Char :=
  replaceAux name pos l.length l

/-- The loop over `paramMatches` in `buildSafeQuery`: for each match, error
when the name is not a key of `parameters`; on the first occurrence of a name
push its argument value and record position `paramValues.length` (after the
push, i.e. the 1-based count of distinct names so far). -/
def collectParams {V : Type} (ps : List (String × V)) :
    List String → List (String × Nat) → List V →
    Except String (List (String × Nat) × List V)
  | [], seen, vals => .ok (seen, vals)
  | m :: rest, seen, vals =>
    match ps.find? (fun e => e.1 == m) with
    | none => .error ("Parameter :" ++ m ++ " not provided")
    | some e =>
      if (seen.find? (fun q => q.1 == m)).isSome then
        collectParams ps rest seen vals
      else
        collectParams ps rest (seen ++ [(m, vals.length + 1)]) (vals ++ [e.2])

/-- Shallow embedding of `buildSafeQuery` (execute-query.ts).  `parameters`
is the JS object `Record<string, any>` as an association list with distinct
keys in declaration order; `Object.values` is the list of second components. -/
def buildSafeQuery {V : Type} (statement : String) (parameters : List (String × V)) :
    Except String (String × List V) :=
  if strIncludesChar statement ':' then
    match collectParams parameters (scanMatches statement.data) [] [] with
    | .error e => .error e
    | .ok (seen, vals) =>
      .ok (String.mk (seen.foldl (fun acc e => replaceNamed e.1.data e.2 acc) statement.data), vals)
  else if strIncludesChar statement '$' then
    .ok (statement, parameters.map (fun e => e.2))
  else
    .ok (statement, [])

/-- Distinct names of a match list, keeping first occurrences, in order;
`seenKeys` are the names already assigned a slot. -/
def dedupAcc : List String → List String → List String
  | [], _ => []
  | n :: rest, seenKeys =>
    if seenKeys.any (fun k => k == n) then dedupAcc rest seenKeys
    else n :: dedupAcc rest (seenKeys ++ [n])

/-- Distinct names in first-occurrence order. -/
def firstOcc (ms : List String) : List String := dedupAcc ms []

/-- Pair each name with consecutive positions starting at `k`. -/
def numberFrom : Nat → List String → List (String × Nat)
  | _, [] => []
  | k, n :: rest => (n, k) :: numberFrom (k + 1) rest

/-- Models `Map.prototype.set`: replace the entry with this key in place (keys are
unique, so the first hit is the only one), else append a new entry. -/
def jsMapSet {α : Type} (k : String) (v : α) : List (String × α) → List (String × α)
  | [] => [(k, v)]
  | e :: rest => if e.1 == k then (k, v) :: rest else e :: jsMapSet k v rest

/-- Models `Map.prototype.has`. -/
def jsMapHas {α : Type} (m : List (String × α)) (k : String) : Bool :=
  m.any (fun e => e.1 == k)

/-- Models `Map.prototype.get` (as an `Option`). -/
def jsMapGet? {α : Type} (m : List (String × α)) (k : String) : Option α :=
  (m.find? (fun e => e.1 == k)).map (fun e => e.2)

/-- The role-synthesis step of `executeQuery` (execute-query.ts): copy
`pgSettings` into `enhancedSettings`; when the map has `jwt.claims.role` but
no `role`, set `role` to the value of `jwt.claims.role`. -/
def enhanceSettings (m : List (String × String)) : List (String × String) :=
  if !(jsMapHas m "role") && jsMapHas m "jwt.claims.role" then
    match jsMapGet? m "jwt.claims.role" with
    | some v => jsMapSet "role" v m
    | none => m
  else m

/-- Events observable on the pool and the dedicated client during one
`executeQuery` invocation, in issue order.  `applySettings` carries the
`settingsEntries` list bound to the single batched `set_config` statement
(the settings values are already strings, so `String(value)` is identity);
`clientQuery`/`poolQuery` carry the bound statement text. -/
inductive Ev
  | connect
  | beginTx
  | applySettings (entries : List (String × String))
  | clientQuery (text : String)
  | commit
  | rollback
  | release
  | poolQuery (text : String)
  deriving DecidableEq

/-- Outcome of each database/hook interaction for one invocation: the
environment against which `executeQuery` is interpreted.  Rows are kept
abstract as their serialized forms. -/
structure Env where
  hooks : Except String (Option (List (String × String)))
  connect : Except String Unit
  beginQ : Except String Unit
  settingsQ : Except String Unit
  clientQ : Except String (List String)
  commitQ : Except String Unit
  rollbackQ : Except String Unit
  poolQ : Except String (List String)

/-- The result payload `{ content: [{type: "text", text}], isError? }`;
content is always a single text entry. -/
structure ToolResult where
  content : List String
  isError : Bool
  deriving DecidableEq

/-- The error text `Error executing tool '<name>': <message>`. -/
def errText (toolName msg : String) : String :=
  "Error executing tool " ++ "'" ++ toolName ++ "'" ++ ": " ++ msg

def mkError (toolName msg : String) : ToolResult :=
  { content := [errText toolName msg], isError := true }

/-- Models `JSON.stringify(rows, null, 2)` on the rows array, treating each
row's own serialization as given: `[]` for the empty set, otherwise the
2-space-indented bracketed list. -/
def serializeRows (rows : List String) : String :=
  match rows with
  | [] => "[]"
  | _ => "[\n  " ++ String.intercalate ",\n  " rows ++ "\n]"

def mkOk (rows : List String) : ToolResult :=
  { content := [serializeRows rows], isError := false }

/-- The catch block around the transaction body: issue ROLLBACK, then
re-throw the original error (when ROLLBACK itself fails, its own rejection
propagates instead); the finally block then releases the client. -/
def rollbackFinish (toolName : String) (origMsg : String) (pre : List Ev) (env : Env) :
    ToolResult × List Ev :=
  match env.rollbackQ with
  | .ok _ => (mkError toolName origMsg, pre ++ [Ev.rollback, Ev.release])
  | .error e2 => (mkError toolName e2, pre ++ [Ev.rollback, Ev.release])

/-- The dedicated-client transaction of `executeQuery`: BEGIN, the one
batched `set_config` statement for `entries`, the main query, COMMIT; any
failure is caught, rolled back and re-raised; the client is released in the
finally block in every case. -/
def txRun (toolName text : String) (entries : List (String × String)) (env : Env) :
    ToolResult × List Ev :=
  match env.beginQ with
  | .error e => rollbackFinish toolName e [Ev.connect, Ev.beginTx] env
  | .ok _ =>
    match env.settingsQ with
    | .error e =>
      rollbackFinish toolName e [Ev.connect, Ev.beginTx, Ev.applySettings entries] env
    | .ok _ =>
      match env.clientQ with
      | .error e =>
        rollbackFinish toolName e
          [Ev.connect, Ev.beginTx, Ev.applySettings entries, Ev.clientQuery text] env
      | .ok rows =>
        match env.commitQ with
        | .error e =>
          rollbackFinish toolName e
            [Ev.connect, Ev.beginTx, Ev.applySettings entries, Ev.clientQuery text, Ev.commit] env
        | .ok _ =>
          (mkOk rows,
           [Ev.connect, Ev.beginTx, Ev.applySettings entries, Ev.clientQuery text, Ev.commit,
            Ev.release])

/-- The direct path: `pool.query(text, values)` with no dedicated client. -/
def poolRun (toolName text : String) (env : Env) : ToolResult × List Ev :=
  match env.poolQ with
  | .error e => (mkError toolName e, [Ev.poolQuery text])
  | .ok rows => (mkOk rows, [Ev.poolQuery text])

/-- Shallow embedding of `executeQuery` (execute-query.ts): bind the
statement, run the beforeQuery hooks, then either the dedicated-client
transaction (merged settings non-empty) or the direct pool query; every
failure is caught at the boundary and converted to an error result. -/
def executeQueryModel {V : Type} (toolName statement : String)
    (args : List (String × V)) (env : Env) : ToolResult × List Ev :=
  match buildSafeQuery statement args with
  | .error e => (mkError toolName e, [])
  | .ok (text, _) =>
    match env.hooks with
    | .error e => (mkError toolName e, [])
    | .ok none => poolRun toolName text env
    | .ok (some m) =>
      if 0 < m.length then
        match env.connect with
        | .error e => (mkError toolName e, [])
        | .ok _ => txRun toolName text (enhanceSettings m) env
      else poolRun toolName text env

/-- A beforeQuery callback as registered in `callbacksByHook`, abstracted to
its outcome on the (fixed) per-invocation context: either a thrown error or
a `BeforeQueryResult` whose `pgSettings` is an optional map. -/
structure CbEntry where
  pluginName : String
  outcome : Except String (Option (List (String × String)))

/-- The loop of `PluginRegistry.executeBeforeQueryHook` (plugins.ts): invoke
the callbacks in order, merging each returned `pgSettings` into the
accumulator (later writes win per key); a callback failure aborts and
propagates.  Also returns the names of the callbacks that were invoked, in
invocation order. -/
def runCallbacks : List CbEntry → List (String × String) →
    Except String (List (String × String)) × List String
  | [], acc => (.ok acc, [])
  | c :: rest, acc =>
    match c.outcome with
    | .error e => (.error e, [c.pluginName])
    | .ok none =>
      let r := runCallbacks rest acc
      (r.1, c.pluginName :: r.2)
    | .ok (some m) =>
      let r := runCallbacks rest (m.foldl (fun a e => jsMapSet e.1 e.2 a) acc)
      (r.1, c.pluginName :: r.2)

/-- Models `executeHook('beforeQuery', ctx)`: the merged settings start empty. -/
def executeBeforeQueryHook (cbs : List CbEntry) :
    Except String (List (String × String)) × List String :=
  runCallbacks cbs []

/-- Merge one returned settings map into the accumulator via `Map.set`. -/
def mergeOne (acc m : List (String × String)) : List (String × String) :=
  m.foldl (fun a e => jsMapSet e.1 e.2 a) acc

/-- Merge a list of returned settings maps, in callback order. -/
def mergeAll (outs : List (List (String × String))) : List (String × String) :=
  outs.foldl mergeOne []

/-- The value of the last entry with key `k` in one returned map. -/
def lookupLast : List (String × String) → String → Option String
  | [], _ => none
  | e :: rest, k =>
    match lookupLast rest k with
    | some v => some v
    | none => if e.1 == k then some e.2 else none

/-- Specification-side description of last-write-wins: the value for `k`
contributed by the latest map (in callback order) that mentions `k`. -/
def lastWinsLookup (outs : List (List (String × String))) (k : String) : Option String :=
  outs.foldl (fun a m =>
    match lookupLast m k with
    | some v => some v
    | none => a) none

/-- A plugin: a name plus an optional beforeQuery callback (abstracted to
its outcome, as in `CbEntry`). -/
structure Plugin where
  name : String
  beforeQuery : Option (Except String (Option (List (String × String))))

/-- The `PluginRegistry` state: the beforeQuery callback array and the
name-keyed plugin map. -/
structure PluginRegistryState where
  beforeQueryCallbacks : List CbEntry
  registeredPlugins : List (String × Plugin)

def emptyRegistry : PluginRegistryState :=
  { beforeQueryCallbacks := [], registeredPlugins := [] }

/-- Models `PluginRegistry.register` (plugins.ts): store the plugin under its name
(`Map.set`, replacing a previous holder of the name), then append each of
its callbacks to the per-hook callback array. -/
def registerPlugin (r : PluginRegistryState) (p : Plugin) : PluginRegistryState :=
  { registeredPlugins := jsMapSet p.name p r.registeredPlugins,
    beforeQueryCallbacks := r.beforeQueryCallbacks ++
      (match p.beforeQuery with
       | some o => [{ pluginName := p.name, outcome := o }]
       | none => []) }

/-- Models `PluginRegistry.getRegisteredPlugins`: the values of the plugin map. -/
def getRegisteredPlugins (r : PluginRegistryState) : List Plugin :=
  r.registeredPlugins.map (fun e => e.2)

/-- Runs `executeHook('beforeQuery', ctx)` on a registry state. -/
def registryExecuteBeforeQuery (r : PluginRegistryState) :
    Except String (List (String × String)) × List String :=
  executeBeforeQueryHook r.beforeQueryCallbacks

/-- A `pg` pool as configured by `ConnectionManager.getPool`
(connection-manager.ts); `id` models object identity of the created
instance. -/
structure PgPool where
  id : Nat
  connectionString : String
  max : Nat
  idleTimeoutMillis : Nat
  connectionTimeoutMillis : Nat
  deriving DecidableEq

/-- The `ConnectionManager` state: the name-keyed pool map, plus the
allocator for instance identities. -/
structure ConnManager where
  pools : List (String × PgPool)
  nextId : Nat
  deriving DecidableEq

def emptyConnManager : ConnManager := { pools := [], nextId := 0 }

/-- The `new Pool({connectionString, max: 10, idleTimeoutMillis: 30000,
connectionTimeoutMillis: 2000})` construction, with `idv` the fresh instance
identity. -/
def mkPool (idv : Nat) (cs : String) : PgPool :=
  { id := idv, connectionString := cs, max := 10,
    idleTimeoutMillis := 30000, connectionTimeoutMillis := 2000 }

/-- Models `ConnectionManager.getPool`: create (via `mkPool`) and cache a pool when
none exists for `sourceName`; otherwise return the cached one. -/
def getPool (cm : ConnManager) (sourceName connectionString : String) :
    PgPool × ConnManager :=
  match cm.pools.find? (fun e => e.1 == sourceName) with
  | some e => (e.2, cm)
  | none =>
    let p : PgPool := mkPool cm.nextId connectionString
    (p, { pools := jsMapSet sourceName p cm.pools, nextId := cm.nextId + 1 })

/-- Models `ConnectionManager.closeAll`: end every cached pool and clear the map;
returns the pools that were ended. -/
def closeAll (cm : ConnManager) : List PgPool × ConnManager :=
  (cm.pools.map (fun e => e.2), { pools := [], nextId := cm.nextId })

/-- Well-formedness of the pool cache: distinct source names, pool ids below
the allocator, distinct pool ids. -/
def ConnManagerWF (cm : ConnManager) : Prop :=
  cm.pools.Pairwise (fun a b => a.1 ≠ b.1)
    ∧ (∀ e ∈ cm.pools, e.2.id < cm.nextId)
    ∧ cm.pools.Pairwise (fun a b => a.2.id ≠ b.2.id)

/-- A loosely-typed caller-supplied argument value (string, number or
boolean scalar).  Numbers are modelled as integers, the only numeric values
the verified claims exercise. -/
inductive JsVal
  | vStr (s : String)
  | vNum (n : Int)
  | vBool (b : Bool)
  deriving DecidableEq

/-- JS `String.prototype.trim`: strip whitespace from both ends. -/
def jsTrim (s : String) : String :=
  String.mk (((s.data.dropWhile Char.isWhitespace).reverse.dropWhile Char.isWhitespace).reverse)

/-- JS `String.prototype.toLowerCase` on the ASCII domain used here. -/
def jsToLower (s : String) : String :=
  String.mk (s.data.map Char.toLower)

/-- Models the JS `Number()` conversion on the value domain used here:
optional surrounding whitespace, optional sign, decimal digits; the empty
(or all-whitespace) string converts to 0; anything else is NaN (`none`). -/
def jsToNumber (s : String) : Option Int :=
  let t := jsTrim s
  if t = "" then some 0
  else
    let core : Int × List Char :=
      match t.data with
      | '-' :: rest => (-1, rest)
      | '+' :: rest => (1, rest)
      | l => (1, l)
    if core.2 ≠ [] ∧ core.2.all Char.isDigit then
      some (core.1 * (Nat.cast (core.2.foldl (fun acc c => acc * 10 + (c.toNat - 48)) 0)))
    else none

/-- Models `String(value)` on a scalar. -/
def jsToString : JsVal → String
  | JsVal.vStr s => s
  | JsVal.vNum n => toString n
  | JsVal.vBool b => if b then "true" else "false"

/-- The manual coercion pass of `ToolConfigWithShape.validateArgs`
(mcp-server.ts): string parameters stringify non-string scalars; number
parameters convert numeric strings via `Number` when not NaN; everything
else is left for the Zod schema. -/
def manualCoerce (ptype : String) (v : JsVal) : JsVal :=
  if ptype = "string" then
    match v with
    | JsVal.vStr s => JsVal.vStr s
    | x => JsVal.vStr (jsToString x)
  else if ptype = "number" then
    match v with
    | JsVal.vStr s =>
      match jsToNumber s with
      | some n => JsVal.vNum n
      | none => JsVal.vStr s
    | x => x
  else v

/-- The custom boolean transform of `createZodSchema` (mcp-server.ts) with
coercion on: recognized false/true words after lowercasing and trimming,
otherwise JS truthiness of the original string, except the literal "0". -/
def zodBoolTransform : JsVal → Bool
  | JsVal.vBool b => b
  | JsVal.vNum n => n != 0
  | JsVal.vStr s =>
    let lower := jsTrim (jsToLower s)
    if lower = "false" ∨ lower = "0" ∨ lower = "" ∨ lower = "no" ∨ lower = "off" then false
    else if lower = "true" ∨ lower = "1" ∨ lower = "yes" ∨ lower = "on" then true
    else decide (s ≠ "") && decide (s ≠ "0")

/-- The Zod schema of `createZodSchema(paramType, coerce := true)`:
`z.string()` for string parameters (and the default branch),
`z.coerce.number()` for number parameters (`Number(input)`, rejecting NaN),
and the custom boolean union/transform for boolean parameters. -/
def zodParse (ptype : String) (v : JsVal) : Except String JsVal :=
  if ptype = "string" then
    match v with
    | JsVal.vStr s => .ok (JsVal.vStr s)
    | _ => .error "Expected string, received non-string"
  else if ptype = "number" then
    match v with
    | JsVal.vNum n => .ok (JsVal.vNum n)
    | JsVal.vBool b => .ok (JsVal.vNum (if b then 1 else 0))
    | JsVal.vStr s =>
      match jsToNumber s with
      | some n => .ok (JsVal.vNum n)
      | none => .error "Expected number, received nan"
  else if ptype = "boolean" then
    .ok (JsVal.vBool (zodBoolTransform v))
  else
    match v with
    | JsVal.vStr s => .ok (JsVal.vStr s)
    | _ => .error "Expected string, received non-string"

/-- One coercion pipeline stage for a supplied value: the manual pass of
`validateArgs` followed by the Zod schema parse. -/
def coerceArg (ptype : String) (v : JsVal) : Except String JsVal :=
  zodParse ptype (manualCoerce ptype v)

/-- A declared parameter spec {name, type, required, default}. -/
structure ParamSpec where
  name : String
  type : String
  required : Bool
  dflt : Option JsVal
  deriving DecidableEq

/-- Models `validateArgs` over the declared parameters: a supplied value goes
through the coercion pipeline; an absent value takes the default (parsed
through the Zod schema, as `getZodShape` does) or is skipped when optional;
an absent required value without a default is an error. -/
def validateParams (params : List ParamSpec) (args : List (String × JsVal)) :
    Except String (List (String × JsVal)) :=
  match params with
  | [] => .ok []
  | p :: rest =>
    let step : Except String (Option JsVal) :=
      match (args.find? (fun e => e.1 == p.name)).map (fun e => e.2) with
      | some v => (coerceArg p.type v).map some
      | none =>
        match p.dflt with
        | some d => (zodParse p.type d).map some
        | none => if p.required then .error ("Required parameter missing: " ++ p.name) else .ok none
    match step with
    | .error e => .error e
    | .ok none => validateParams rest args
    | .ok (some v) =>
      match validateParams rest args with
      | .error e => .error e
      | .ok r => .ok ((p.name, v) :: r)

theorem collectParams_cons {V : Type} (ps : List (String × V)) (m : String) (rest : List String)
    (seen : List (String × Nat)) (vals : List V) :
    collectParams ps (m :: rest) seen vals =
      match ps.find? (fun e => e.1 == m) with
      | none => .error ("Parameter :" ++ m ++ " not provided")
      | some e =>
        if (seen.find? (fun q => q.1 == m)).isSome then
          collectParams ps rest seen vals
        else
          collectParams ps rest (seen ++ [(m, vals.length + 1)]) (vals ++ [e.2]) := rfl

theorem find?_key_isSome_eq_any (m : String) :
    ∀ (seen : List (String × Nat)),
      (seen.find? (fun q => q.1 == m)).isSome
        = (seen.map (fun q => q.1)).any (fun k => k == m)
  | [] => rfl
  | q :: rest => by
    by_cases hq : q.1 == m
    · simp [List.find?, hq]
    · simp only [Bool.not_eq_true] at hq
      simp [List.find?, hq, find?_key_isSome_eq_any m rest]

theorem collectParams_ok_spec {V : Type} (ps : List (String × V)) :
    ∀ (ms : List String) (seen : List (String × Nat)) (vals : List V)
      (r : List (String × Nat) × List V),
      collectParams ps ms seen vals = .ok r →
      r.1 = seen ++ numberFrom (vals.length + 1) (dedupAcc ms (seen.map (fun e => e.1)))
        ∧ r.2 = vals ++ (dedupAcc ms (seen.map (fun e => e.1))).filterMap
            (fun n => (ps.find? (fun e => e.1 == n)).map (fun e => e.2))
  | [], seen, vals, r, h => by
    cases h
    simp [dedupAcc, numberFrom]
  | m :: rest, seen, vals, r, h => by
    rw [collectParams_cons] at h
    cases hf : ps.find? (fun e => e.1 == m) with
    | none => rw [hf] at h; cases h
    | some e =>
      rw [hf] at h
      dsimp only at h
      by_cases hs : (seen.find? (fun q => q.1 == m)).isSome
      · rw [if_pos hs] at h
        have hk : (seen.map (fun q => q.1)).any (fun k => k == m) = true := by
          rw [← find?_key_isSome_eq_any]; exact hs
        obtain ⟨h1, h2⟩ := collectParams_ok_spec ps rest seen vals r h
        constructor
        · rw [h1]; simp [dedupAcc, hk]
        · rw [h2]; simp [dedupAcc, hk]
      · rw [if_neg hs] at h
        have hk : (seen.map (fun q => q.1)).any (fun k => k == m) = false := by
          rw [← find?_key_isSome_eq_any]; exact Bool.not_eq_true _ ▸ (by simpa using hs)
        obtain ⟨h1, h2⟩ := collectParams_ok_spec ps rest (seen ++ [(m, vals.length + 1)]) (vals ++ [e.2]) r h
        constructor
        · rw [h1]
          simp [dedupAcc, hk, numberFrom, List.append_assoc]
        · rw [h2]
          simp [dedupAcc, hk, List.filterMap_cons, hf, List.append_assoc]

theorem find?_key_isSome_congr {V W : Type} (n : String) :
    ∀ (p1 : List (String × V)) (p2 : List (String × W)),
      p1.map (fun e => e.1) = p2.map (fun e => e.1) →
      (p1.find? (fun e => e.1 == n)).isSome = (p2.find? (fun e => e.1 == n)).isSome
  | [], [], _ => rfl
  | [], _ :: _, h => by cases h
  | _ :: _, [], h => by cases h
  | e :: r1, f :: r2, h => by
    simp only [List.map_cons, List.cons.injEq] at h
    by_cases he : e.1 == n
    · have hf : (f.1 == n) = true := by rw [← h.1]; exact he
      simp [List.find?, he, hf]
    · simp only [Bool.not_eq_true] at he
      have hf : (f.1 == n) = false := by rw [← h.1]; exact he
      simp [List.find?, he, hf, find?_key_isSome_congr n r1 r2 h.2]

theorem collectParams_shape_congr {V W : Type} :
    ∀ (ms : List String) (p1 : List (String × V)) (p2 : List (String × W))
      (seen : List (String × Nat)) (vals1 : List V) (vals2 : List W),
      p1.map (fun e => e.1) = p2.map (fun e => e.1) →
      vals1.length = vals2.length →
      Except.map Prod.fst (collectParams p1 ms seen vals1)
        = Except.map Prod.fst (collectParams p2 ms seen vals2)
  | [], _, _, seen, vals1, vals2, _, _ => rfl
  | m :: rest, p1, p2, seen, vals1, vals2, hkeys, hlen => by
    rw [collectParams_cons, collectParams_cons]
    have hsome := find?_key_isSome_congr m p1 p2 hkeys
    cases h1 : p1.find? (fun e => e.1 == m) with
    | none =>
      cases h2 : p2.find? (fun e => e.1 == m) with
      | none => rfl
      | some f => rw [h1, h2] at hsome; cases hsome
    | some e =>
      cases h2 : p2.find? (fun e => e.1 == m) with
      | none => rw [h1, h2] at hsome; cases hsome
      | some f =>
        dsimp only
        by_cases hs : (seen.find? (fun q => q.1 == m)).isSome
        · rw [if_pos hs, if_pos hs]
          exact collectParams_shape_congr rest p1 p2 seen vals1 vals2 hkeys hlen
        · rw [if_neg hs, if_neg hs, hlen]
          exact collectParams_shape_congr rest p1 p2 _ _ _ hkeys (by simp [hlen])

/-- Claim C1: the statement text produced by `buildSafeQuery` (and whether it
errors, and with which message) depends only on the template and the set of
argument keys, never on the argument values: two runs on the same template
with the same key list and any two value assignments — even of different
types — produce identical statement text.  Values are emitted only in the
separate value list, so no caller-supplied value is ever concatenated into
the statement text. -/
theorem buildSafeQuery_text_value_independence {V W : Type} (statement : String)
    (p1 : List (String × V)) (p2 : List (String × W))
    (hkeys : p1.map (fun e => e.1) = p2.map (fun e => e.1)) :
    Except.map Prod.fst (buildSafeQuery statement p1)
      = Except.map Prod.fst (buildSafeQuery statement p2) := by
  have hcongr := collectParams_shape_congr (scanMatches statement.data) p1 p2 [] [] [] hkeys rfl
  by_cases hc : strIncludesChar statement ':' = true
  · cases h1 : collectParams p1 (scanMatches statement.data) [] [] with
    | error e1 =>
      cases h2 : collectParams p2 (scanMatches statement.data) [] [] with
      | error e2 =>
        rw [h1, h2] at hcongr
        simp only [Except.map] at hcongr
        cases hcongr
        simp [buildSafeQuery, hc, h1, h2, Except.map]
      | ok r2 =>
        rw [h1, h2] at hcongr
        simp [Except.map] at hcongr
    | ok r1 =>
      cases h2 : collectParams p2 (scanMatches statement.data) [] [] with
      | error e2 =>
        rw [h1, h2] at hcongr
        simp [Except.map] at hcongr
      | ok r2 =>
        obtain ⟨seen1, vals1⟩ := r1
        obtain ⟨seen2, vals2⟩ := r2
        rw [h1, h2] at hcongr
        simp only [Except.map] at hcongr
        have hseen : seen1 = seen2 := by simpa using hcongr
        simp [buildSafeQuery, hc, h1, h2, hseen, Except.map]
  · by_cases hd : strIncludesChar statement '$' = true <;>
      simp [buildSafeQuery, hc, hd, Except.map]

/-- Witness for C1 at a concrete template: same key set, different values,
identical statement text. -/
theorem buildSafeQuery_text_value_independence_witness :
    ([("a", (1 : Int))].map (fun e => e.1) = [("a", (2 : Int))].map (fun e => e.1))
    ∧ Except.map Prod.fst (buildSafeQuery "x = :a AND y = :a" [("a", (1 : Int))])
      = Except.map Prod.fst (buildSafeQuery "x = :a AND y = :a" [("a", (2 : Int))]) :=
  ⟨rfl, buildSafeQuery_text_value_independence "x = :a AND y = :a" _ _ rfl⟩

/-- Claim C3: on a template with named placeholders, `buildSafeQuery` gives
each distinct name one positional slot in first-occurrence order
(slot `i + 1` for the `i`-th distinct name), rewrites the text by replacing
each occurrence of a name with its single slot, and emits the values in
first-occurrence order of the distinct names; in particular the template
`SELECT * FROM users WHERE id = :user_id OR parent_id = :user_id` with
`{user_id: 123}` binds to
`SELECT * FROM users WHERE id = $1 OR parent_id = $1` with values `[123]`. -/
theorem buildSafeQuery_named_binding {V : Type} (statement : String)
    (p : List (String × V)) (t : String) (vals : List V)
    (hc : strIncludesChar statement ':' = true)
    (hok : buildSafeQuery statement p = .ok (t, vals)) :
    vals = (firstOcc (scanMatches statement.data)).filterMap
        (fun n => (p.find? (fun e => e.1 == n)).map (fun e => e.2))
    ∧ t = String.mk ((numberFrom 1 (firstOcc (scanMatches statement.data))).foldl
        (fun acc e => replaceNamed e.1.data e.2 acc) statement.data)
    ∧ buildSafeQuery "SELECT * FROM users WHERE id = :user_id OR parent_id = :user_id"
        [("user_id", (123 : Int))]
      = .ok ("SELECT * FROM users WHERE id = $1 OR parent_id = $1", [123]) := by
  unfold buildSafeQuery at hok
  rw [hc] at hok
  rw [if_pos rfl] at hok
  cases h1 : collectParams p (scanMatches statement.data) [] [] with
  | error e =>
    rw [h1] at hok
    simp at hok
  | ok r =>
    obtain ⟨seen, vals0⟩ := r
    have hspec := collectParams_ok_spec p (scanMatches statement.data) [] [] (seen, vals0) h1
    obtain ⟨hseen, hvals⟩ := hspec
    simp at hseen hvals
    rw [h1] at hok
    dsimp only at hok
    rw [Except.ok.injEq, Prod.mk.injEq] at hok
    obtain ⟨ht, hv⟩ := hok
    refine ⟨?_, ?_, rfl⟩
    · rw [← hv, hvals]
      rfl
    · rw [← ht, hseen]
      rfl

/-- Witness for C3 at the spec's end-to-end example. -/
theorem buildSafeQuery_named_binding_witness :
    strIncludesChar "SELECT * FROM users WHERE id = :user_id OR parent_id = :user_id" ':' = true
    ∧ buildSafeQuery "SELECT * FROM users WHERE id = :user_id OR parent_id = :user_id"
        [("user_id", (123 : Int))]
      = .ok ("SELECT * FROM users WHERE id = $1 OR parent_id = $1", [123]) :=
  ⟨rfl, (buildSafeQuery_named_binding
    "SELECT * FROM users WHERE id = :user_id OR parent_id = :user_id"
    [("user_id", (123 : Int))]
    "SELECT * FROM users WHERE id = $1 OR parent_id = $1" [123] rfl rfl).2.2⟩

/-- Counterexample to claim C7 as stated: this template uses the native
positional placeholder `$1` and contains no named placeholder (its only
colon, inside a string literal, is not followed by a word character, so
`/:(\w+)/` never matches), yet `buildSafeQuery` returns an empty value list
rather than the declared argument values, because the branch is chosen by
`statement.includes(":")`. -/
theorem buildSafeQuery_positional_counterexample :
    buildSafeQuery "SELECT name FROM t WHERE id = $1 AND tag = ': '" [("id", (7 : Int))]
      = .ok ("SELECT name FROM t WHERE id = $1 AND tag = ': '", ([] : List Int))
    ∧ buildSafeQuery "SELECT name FROM t WHERE id = $1 AND tag = ': '" [("id", (7 : Int))]
      ≠ .ok ("SELECT name FROM t WHERE id = $1 AND tag = ': '", [(7 : Int)]) := by
  refine ⟨rfl, ?_⟩
  intro h
  have h0 : buildSafeQuery "SELECT name FROM t WHERE id = $1 AND tag = ': '"
      [("id", (7 : Int))]
      = .ok ("SELECT name FROM t WHERE id = $1 AND tag = ': '", ([] : List Int)) := rfl
  have := h0.symm.trans h
  simp at this

/-- Claim C7 as amended: the pass-through branches are selected by character
containment, not by placeholder syntax.  For every template containing no
colon character: if it contains a dollar character the statement passes
through unchanged with the argument values in declaration order, and if it
contains no dollar either it passes through with an empty value list. -/
theorem buildSafeQuery_character_branch_passthrough {V : Type} (s : String)
    (p : List (String × V)) (hc : strIncludesChar s ':' = false) :
    (strIncludesChar s '$' = true → buildSafeQuery s p = .ok (s, p.map (fun e => e.2)))
    ∧ (strIncludesChar s '$' = false → buildSafeQuery s p = .ok (s, [])) := by
  refine ⟨fun hd => ?_, fun hd => ?_⟩ <;> simp [buildSafeQuery, hc, hd]

/-- Witness for the amended C7 on a purely positional template. -/
theorem buildSafeQuery_character_branch_passthrough_witness :
    strIncludesChar "SELECT name FROM t WHERE id = $1" ':' = false
    ∧ buildSafeQuery "SELECT name FROM t WHERE id = $1" [("id", (7 : Int))]
      = .ok ("SELECT name FROM t WHERE id = $1", [(7 : Int)]) :=
  ⟨rfl, (buildSafeQuery_character_branch_passthrough
    "SELECT name FROM t WHERE id = $1" [("id", (7 : Int))] rfl).1 rfl⟩

theorem rollbackFinish_trace (toolName msg : String) (pre : List Ev) (env : Env) :
    (rollbackFinish toolName msg pre env).2 = pre ++ [Ev.rollback, Ev.release] := by
  unfold rollbackFinish
  cases env.rollbackQ <;> rfl

theorem txRun_release_once (toolName text : String) (entries : List (String × String))
    (env : Env) :
    (txRun toolName text entries env).2.count Ev.release = 1
    ∧ (txRun toolName text entries env).2.getLast? = some Ev.release := by
  obtain ⟨hooks, conn, bq, sq, cq, coq, rbq, pq⟩ := env
  unfold txRun rollbackFinish
  cases bq <;> cases sq <;> cases cq <;> cases coq <;> cases rbq <;>
    simp [List.count_cons, List.getLast?]

theorem jsMapGet?_set {α : Type} (k : String) (v : α) :
    ∀ (m : List (String × α)) (k2 : String),
      jsMapGet? (jsMapSet k v m) k2 = if k = k2 then some v else jsMapGet? m k2
  | [], k2 => by
    by_cases h : k = k2
    · have hb : (k == k2) = true := beq_iff_eq.mpr h
      simp [jsMapSet, jsMapGet?, List.find?, hb, h]
    · have hb : (k == k2) = false := beq_eq_false_iff_ne.mpr h
      simp [jsMapSet, jsMapGet?, List.find?, hb, h]
  | e :: rest, k2 => by
    by_cases he : e.1 = k
    · have hbe : (e.1 == k) = true := beq_iff_eq.mpr he
      by_cases h : k = k2
      · have hb : (k == k2) = true := beq_iff_eq.mpr h
        have he2 : e.1 = k2 := he.trans h
        simp [jsMapSet, jsMapGet?, List.find?, hbe, hb, h, he2]
      · have hb : (k == k2) = false := beq_eq_false_iff_ne.mpr h
        have hb2 : (e.1 == k2) = false :=
          beq_eq_false_iff_ne.mpr (fun hh => h (he.symm.trans hh))
        simp [jsMapSet, jsMapGet?, List.find?, hbe, hb, hb2, h]
    · have hbe : (e.1 == k) = false := beq_eq_false_iff_ne.mpr he
      have ih := jsMapGet?_set k v rest k2
      by_cases h2 : e.1 = k2
      · have h : ¬(k = k2) := fun hh => he (h2.trans hh.symm)
        have hb2 : (e.1 == k2) = true := beq_iff_eq.mpr h2
        simp [jsMapSet, jsMapGet?, List.find?, hbe, hb2, h]
      · have hb2 : (e.1 == k2) = false := beq_eq_false_iff_ne.mpr h2
        simp only [jsMapGet?] at ih
        simp [jsMapSet, jsMapGet?, List.find?, hbe, hb2, ih]

theorem jsMapHas_eq_isSome {α : Type} (k : String) :
    ∀ (m : List (String × α)), jsMapHas m k = (jsMapGet? m k).isSome
  | [] => rfl
  | e :: rest => by
    by_cases he : e.1 = k
    · have hbe : (e.1 == k) = true := beq_iff_eq.mpr he
      simp [jsMapHas, jsMapGet?, List.find?, hbe]
    · have hbe : (e.1 == k) = false := beq_eq_false_iff_ne.mpr he
      have ih := jsMapHas_eq_isSome k rest
      simp only [jsMapHas, jsMapGet?] at ih
      simp [jsMapHas, jsMapGet?, List.find?, hbe, ih]

/-- Claim C2: with non-empty merged settings, `executeQuery` checks out a
dedicated connection, issues BEGIN, applies the settings in one batched
statement, runs the main query, and commits; a failure of the settings
statement or of the main query triggers ROLLBACK and re-raises the original
failure; when settings application fails the main query is never issued; in
every such case the connection is released exactly once, as the final action
after rollback/commit. -/
theorem executeQuery_transaction_discipline {V : Type} (toolName statement : String)
    (args : List (String × V)) (env : Env) (text : String) (vals : List V)
    (m : List (String × String))
    (hbind : buildSafeQuery statement args = .ok (text, vals))
    (hhooks : env.hooks = .ok (some m))
    (hm : 0 < m.length)
    (hconn : env.connect = .ok ()) :
    (env.beginQ = .ok () → env.rollbackQ = .ok () →
      ((∀ rows, env.settingsQ = .ok () → env.clientQ = .ok rows → env.commitQ = .ok () →
          executeQueryModel toolName statement args env =
            (mkOk rows,
             [Ev.connect, Ev.beginTx, Ev.applySettings (enhanceSettings m),
              Ev.clientQuery text, Ev.commit, Ev.release]))
       ∧ (∀ e, env.settingsQ = .ok () → env.clientQ = .error e →
          executeQueryModel toolName statement args env =
            (mkError toolName e,
             [Ev.connect, Ev.beginTx, Ev.applySettings (enhanceSettings m),
              Ev.clientQuery text, Ev.rollback, Ev.release]))
       ∧ (∀ e, env.settingsQ = .error e →
          executeQueryModel toolName statement args env =
            (mkError toolName e,
             [Ev.connect, Ev.beginTx, Ev.applySettings (enhanceSettings m),
              Ev.rollback, Ev.release])
          ∧ Ev.clientQuery text ∉ (executeQueryModel toolName statement args env).2)))
    ∧ (executeQueryModel toolName statement args env).2.count Ev.release = 1
    ∧ (executeQueryModel toolName statement args env).2.getLast? = some Ev.release := by
  have hrun : executeQueryModel toolName statement args env
      = txRun toolName text (enhanceSettings m) env := by
    unfold executeQueryModel
    rw [hbind]
    dsimp only
    rw [hhooks]
    dsimp only
    rw [if_pos hm, hconn]
  refine ⟨fun hb hrb => ⟨?_, ?_, ?_⟩, ?_, ?_⟩
  · intro rows hset hcli hcom
    rw [hrun]
    unfold txRun
    rw [hb, hset, hcli, hcom]
  · intro e hset hcli
    rw [hrun]
    unfold txRun rollbackFinish
    rw [hb, hset, hcli, hrb]
    rfl
  · intro e hset
    rw [hrun]
    unfold txRun rollbackFinish
    rw [hb, hset, hrb]
    exact ⟨rfl, by simp⟩
  · rw [hrun]
    exact (txRun_release_once toolName text (enhanceSettings m) env).1
  · rw [hrun]
    exact (txRun_release_once toolName text (enhanceSettings m) env).2

/-- Witness for C2 on the all-success scenario of a concrete invocation. -/
theorem executeQuery_transaction_discipline_witness :
    executeQueryModel "t" ":a" [("a", "v")]
      { hooks := .ok (some [("role", "admin")]), connect := .ok (), beginQ := .ok (),
        settingsQ := .ok (), clientQ := .ok ["r1"], commitQ := .ok (),
        rollbackQ := .ok (), poolQ := .ok [] } =
      (mkOk ["r1"],
       [Ev.connect, Ev.beginTx, Ev.applySettings (enhanceSettings [("role", "admin")]),
        Ev.clientQuery "$1", Ev.commit, Ev.release]) :=
  ((executeQuery_transaction_discipline "t" ":a" [("a", "v")] _ "$1" ["v"]
      [("role", "admin")] rfl rfl (by decide) rfl).1 rfl rfl).1 ["r1"] rfl rfl rfl

/-- Claim C4: on the transactional path the batched settings statement binds
exactly `enhanceSettings` of the merged map; when the merged map has
`jwt.claims.role` but no `role`, the applied settings gain a synthesized
`role` entry equal to the `jwt.claims.role` value, and an explicit `role`
entry is never overwritten (the map is applied unchanged). -/
theorem executeQuery_role_synthesis {V : Type} (toolName statement : String)
    (args : List (String × V)) (env : Env) (text : String) (vals : List V)
    (m : List (String × String))
    (hbind : buildSafeQuery statement args = .ok (text, vals))
    (hhooks : env.hooks = .ok (some m))
    (hm : 0 < m.length)
    (hconn : env.connect = .ok ())
    (hb : env.beginQ = .ok ()) :
    (∃ rest, (executeQueryModel toolName statement args env).2
        = Ev.connect :: Ev.beginTx :: Ev.applySettings (enhanceSettings m) :: rest)
    ∧ (jsMapHas m "role" = false → jsMapHas m "jwt.claims.role" = true →
        jsMapGet? (enhanceSettings m) "role" = jsMapGet? m "jwt.claims.role"
        ∧ (jsMapGet? (enhanceSettings m) "role").isSome = true)
    ∧ (jsMapHas m "role" = true → enhanceSettings m = m) := by
  have hrun : executeQueryModel toolName statement args env
      = txRun toolName text (enhanceSettings m) env := by
    unfold executeQueryModel
    rw [hbind]
    dsimp only
    rw [hhooks]
    dsimp only
    rw [if_pos hm, hconn]
  refine ⟨?_, ?_, ?_⟩
  · rw [hrun]
    unfold txRun
    rw [hb]
    cases hset : env.settingsQ with
    | error e =>
      exact ⟨[Ev.rollback, Ev.release], rollbackFinish_trace toolName e _ env⟩
    | ok u =>
      cases hcli : env.clientQ with
      | error e =>
        exact ⟨[Ev.clientQuery text, Ev.rollback, Ev.release],
          rollbackFinish_trace toolName e _ env⟩
      | ok rows =>
        cases hcom : env.commitQ with
        | error e =>
          exact ⟨[Ev.clientQuery text, Ev.commit, Ev.rollback, Ev.release],
            rollbackFinish_trace toolName e _ env⟩
        | ok u2 => exact ⟨[Ev.clientQuery text, Ev.commit, Ev.release], rfl⟩
  · intro hro hj
    have hjs : (jsMapGet? m "jwt.claims.role").isSome = true := by
      rw [← jsMapHas_eq_isSome]; exact hj
    obtain ⟨v, hv⟩ := Option.isSome_iff_exists.mp hjs
    have hcond : (!(jsMapHas m "role") && jsMapHas m "jwt.claims.role") = true := by
      rw [hro, hj]; rfl
    have henh : enhanceSettings m = jsMapSet "role" v m := by
      unfold enhanceSettings
      rw [hcond, hv]
      rfl
    rw [henh, jsMapGet?_set, if_pos rfl, hv]
    exact ⟨rfl, rfl⟩
  · intro hro
    unfold enhanceSettings
    rw [hro]
    rfl

/-- Witness for C4: role synthesized from `jwt.claims.role` on a concrete
invocation, and an explicit `role` left unchanged. -/
theorem executeQuery_role_synthesis_witness :
    (jsMapGet? (enhanceSettings [("jwt.claims.role", "admin")]) "role"
        = jsMapGet? [("jwt.claims.role", "admin")] "jwt.claims.role"
      ∧ (jsMapGet? (enhanceSettings [("jwt.claims.role", "admin")]) "role").isSome = true)
    ∧ enhanceSettings [("role", "authenticated"), ("jwt.claims.role", "admin")]
        = [("role", "authenticated"), ("jwt.claims.role", "admin")] :=
  ⟨(executeQuery_role_synthesis "t" ":a" [("a", "v")]
      { hooks := .ok (some [("jwt.claims.role", "admin")]), connect := .ok (),
        beginQ := .ok (), settingsQ := .ok (), clientQ := .ok [], commitQ := .ok (),
        rollbackQ := .ok (), poolQ := .ok [] } "$1" ["v"] [("jwt.claims.role", "admin")]
      rfl rfl (by decide) rfl rfl).2.1 rfl rfl,
   (executeQuery_role_synthesis "t2" ":a" [("a", "v")]
      { hooks := .ok (some [("role", "authenticated"), ("jwt.claims.role", "admin")]),
        connect := .ok (), beginQ := .ok (), settingsQ := .ok (), clientQ := .ok [],
        commitQ := .ok (), rollbackQ := .ok (), poolQ := .ok [] } "$1" ["v"]
      [("role", "authenticated"), ("jwt.claims.role", "admin")]
      rfl rfl (by decide) rfl rfl).2.2 rfl⟩

/-- Claim C6: `executeQueryModel` is total and its result is always one of
the two shapes: the single text entry
`Error executing tool '<name>': <message>` with the error flag set, or the
serialized rows with no error flag. -/
theorem executeQuery_result_shape {V : Type} (toolName statement : String)
    (args : List (String × V)) (env : Env) :
    (∃ msg, (executeQueryModel toolName statement args env).1 = mkError toolName msg)
    ∨ (∃ rows, (executeQueryModel toolName statement args env).1 = mkOk rows) := by
  obtain ⟨hooks, conn, bq, sq, cq, coq, rbq, pq⟩ := env
  unfold executeQueryModel
  cases hb : buildSafeQuery statement args with
  | error e => exact .inl ⟨e, rfl⟩
  | ok r =>
    obtain ⟨text, vals⟩ := r
    dsimp only
    cases hooks with
    | error e => exact .inl ⟨e, rfl⟩
    | ok o =>
      cases o with
      | none =>
        cases pq with
        | error e => exact .inl ⟨e, rfl⟩
        | ok rows => exact .inr ⟨rows, rfl⟩
      | some m =>
        dsimp only
        by_cases hm : 0 < m.length
        · rw [if_pos hm]
          cases conn with
          | error e => exact .inl ⟨e, rfl⟩
          | ok u =>
            unfold txRun rollbackFinish
            cases bq with
            | error e =>
              cases rbq with
              | error e2 => exact .inl ⟨e2, rfl⟩
              | ok u2 => exact .inl ⟨e, rfl⟩
            | ok u1 =>
              cases sq with
              | error e =>
                cases rbq with
                | error e2 => exact .inl ⟨e2, rfl⟩
                | ok u2 => exact .inl ⟨e, rfl⟩
              | ok u3 =>
                cases cq with
                | error e =>
                  cases rbq with
                  | error e2 => exact .inl ⟨e2, rfl⟩
                  | ok u2 => exact .inl ⟨e, rfl⟩
                | ok rows =>
                  cases coq with
                  | error e =>
                    cases rbq with
                    | error e2 => exact .inl ⟨e2, rfl⟩
                    | ok u2 => exact .inl ⟨e, rfl⟩
                  | ok u4 => exact .inr ⟨rows, rfl⟩
        · rw [if_neg hm]
          cases pq with
          | error e => exact .inl ⟨e, rfl⟩
          | ok rows => exact .inr ⟨rows, rfl⟩

theorem mergeOne_get? (k : String) :
    ∀ (m acc : List (String × String)),
      jsMapGet? (mergeOne acc m) k =
        match lookupLast m k with
        | some v => some v
        | none => jsMapGet? acc k
  | [], acc => rfl
  | e :: rest, acc => by
    have ih := mergeOne_get? k rest (jsMapSet e.1 e.2 acc)
    have hstep : mergeOne acc (e :: rest) = mergeOne (jsMapSet e.1 e.2 acc) rest := rfl
    rw [hstep, ih]
    cases hll : lookupLast rest k with
    | some v => simp [lookupLast, hll]
    | none =>
      by_cases he : e.1 = k
      · have hbe : (e.1 == k) = true := beq_iff_eq.mpr he
        simp [lookupLast, hll, hbe, jsMapGet?_set, he]
      · have hbe : (e.1 == k) = false := beq_eq_false_iff_ne.mpr he
        simp [lookupLast, hll, hbe, jsMapGet?_set, he]

theorem foldl_mergeOne_get? (k : String) :
    ∀ (outs : List (List (String × String))) (acc : List (String × String)),
      jsMapGet? (outs.foldl mergeOne acc) k =
        outs.foldl (fun a m =>
          match lookupLast m k with
          | some v => some v
          | none => a) (jsMapGet? acc k)
  | [], acc => rfl
  | m :: rest, acc => by
    have ih := foldl_mergeOne_get? k rest (mergeOne acc m)
    simp only [List.foldl_cons]
    rw [ih, mergeOne_get? k m acc]

theorem mergeAll_lastWins (outs : List (List (String × String))) (k : String) :
    jsMapGet? (mergeAll outs) k = lastWinsLookup outs k :=
  foldl_mergeOne_get? k outs []

theorem runCallbacks_ok_some :
    ∀ (pairs : List (String × List (String × String))) (acc : List (String × String)),
      runCallbacks
          (pairs.map (fun p => { pluginName := p.1, outcome := Except.ok (some p.2) })) acc
        = (.ok ((pairs.map (fun p => p.2)).foldl mergeOne acc), pairs.map (fun p => p.1))
  | [], acc => rfl
  | p :: rest, acc => by
    have ih := runCallbacks_ok_some rest (mergeOne acc p.2)
    simp only [List.map_cons, runCallbacks, List.foldl_cons]
    rw [show (p.2.foldl (fun a e => jsMapSet e.1 e.2 a) acc) = mergeOne acc p.2 from rfl]
    rw [ih]

/-- Claim C5: `executeHook('beforeQuery', ctx)` invokes every registered
callback in registration order (the invocation trace equals the registration
list), merges the returned settings maps with last-registered-wins per key
(characterized by `lastWinsLookup`), and returns the empty settings map when
no callbacks are registered; in particular callbacks returning
`{role: "x"}` then `{role: "y"}` merge to `role = "y"`. -/
theorem beforeQuery_hook_merge (pairs : List (String × List (String × String))) :
    executeBeforeQueryHook
        (pairs.map (fun p => { pluginName := p.1, outcome := Except.ok (some p.2) }))
      = (.ok (mergeAll (pairs.map (fun p => p.2))), pairs.map (fun p => p.1))
    ∧ (∀ k, jsMapGet? (mergeAll (pairs.map (fun p => p.2))) k
        = lastWinsLookup (pairs.map (fun p => p.2)) k)
    ∧ executeBeforeQueryHook [] = (.ok [], [])
    ∧ jsMapGet? (mergeAll [[("role", "x")], [("role", "y")]]) "role" = some "y" :=
  ⟨runCallbacks_ok_some pairs [], fun k => mergeAll_lastWins _ k, rfl, rfl⟩

/-- Claim C10: registering a second plugin under an existing name replaces
the registry-listing entry (one entry, the later plugin) but leaves the
earlier beforeQuery callback in the callback array, so a subsequent
`executeHook('beforeQuery', ctx)` still invokes both callbacks, earlier
first. -/
theorem plugin_reregistration_callbacks (n : String) (m1 m2 : List (String × String)) :
    getRegisteredPlugins (registerPlugin (registerPlugin emptyRegistry
        { name := n, beforeQuery := some (.ok (some m1)) })
        { name := n, beforeQuery := some (.ok (some m2)) })
      = [{ name := n, beforeQuery := some (.ok (some m2)) }]
    ∧ (registerPlugin (registerPlugin emptyRegistry
        { name := n, beforeQuery := some (.ok (some m1)) })
        { name := n, beforeQuery := some (.ok (some m2)) }).beforeQueryCallbacks
      = [{ pluginName := n, outcome := .ok (some m1) },
         { pluginName := n, outcome := .ok (some m2) }]
    ∧ (registryExecuteBeforeQuery (registerPlugin (registerPlugin emptyRegistry
        { name := n, beforeQuery := some (.ok (some m1)) })
        { name := n, beforeQuery := some (.ok (some m2)) })).2
      = [n, n]
    ∧ (registryExecuteBeforeQuery (registerPlugin (registerPlugin emptyRegistry
        { name := n, beforeQuery := some (.ok (some m1)) })
        { name := n, beforeQuery := some (.ok (some m2)) })).1
      = .ok (mergeAll [m1, m2]) := by
  have hreg : registerPlugin (registerPlugin emptyRegistry
      { name := n, beforeQuery := some (.ok (some m1)) })
      { name := n, beforeQuery := some (.ok (some m2)) }
      = { beforeQueryCallbacks :=
            [{ pluginName := n, outcome := .ok (some m1) },
             { pluginName := n, outcome := .ok (some m2) }],
          registeredPlugins := [(n, { name := n, beforeQuery := some (.ok (some m2)) })] } := by
    simp [registerPlugin, emptyRegistry, jsMapSet]
  refine ⟨?_, ?_, ?_, ?_⟩ <;>
    rw [hreg] <;>
    simp [getRegisteredPlugins, registryExecuteBeforeQuery, executeBeforeQueryHook,
      runCallbacks, mergeAll, mergeOne]

theorem find?_jsMapSet_self {α : Type} (k : String) (v : α) :
    ∀ m : List (String × α), (jsMapSet k v m).find? (fun e => e.1 == k) = some (k, v)
  | [] => by simp [jsMapSet, List.find?]
  | e :: rest => by
    by_cases he : e.1 = k
    · have hbe : (e.1 == k) = true := beq_iff_eq.mpr he
      simp [jsMapSet, List.find?, hbe, he]
    · have hbe : (e.1 == k) = false := beq_eq_false_iff_ne.mpr he
      simp [jsMapSet, List.find?, hbe, he, find?_jsMapSet_self k v rest]

theorem find?_jsMapSet_other {α : Type} (k k2 : String) (v : α) (hne : k ≠ k2) :
    ∀ m : List (String × α),
      (jsMapSet k v m).find? (fun e => e.1 == k2) = m.find? (fun e => e.1 == k2)
  | [] => by
    have hb : (k == k2) = false := beq_eq_false_iff_ne.mpr hne
    simp [jsMapSet, List.find?, hb]
  | e :: rest => by
    by_cases he : e.1 = k
    · have hbe : (e.1 == k) = true := beq_iff_eq.mpr he
      have hb : (k == k2) = false := beq_eq_false_iff_ne.mpr hne
      have hbe2 : (e.1 == k2) = false :=
        beq_eq_false_iff_ne.mpr (fun hh => hne (he ▸ hh))
      simp [jsMapSet, List.find?, hbe, hb, hbe2, he]
    · have hbe : (e.1 == k) = false := beq_eq_false_iff_ne.mpr he
      by_cases h2 : e.1 = k2
      · have hb2 : (e.1 == k2) = true := beq_iff_eq.mpr h2
        simp [jsMapSet, List.find?, hbe, hb2, he]
      · have hb2 : (e.1 == k2) = false := beq_eq_false_iff_ne.mpr h2
        simp [jsMapSet, List.find?, hbe, hb2, he, find?_jsMapSet_other k k2 v hne rest]

theorem jsMapSet_of_find?_none {α : Type} (k : String) (v : α) :
    ∀ m : List (String × α), m.find? (fun e => e.1 == k) = none →
      jsMapSet k v m = m ++ [(k, v)]
  | [], _ => rfl
  | e :: rest, h => by
    have hall := List.find?_eq_none.mp h
    have hbe : (e.1 == k) = false := by
      have := hall e (by simp)
      simpa using this
    have hrest : rest.find? (fun e => e.1 == k) = none :=
      List.find?_eq_none.mpr (fun x hx => hall x (by simp [hx]))
    simp [jsMapSet, hbe, jsMapSet_of_find?_none k v rest hrest]

/-- Claim C8: `getPool` creates a pool (bounded by `max = 10`,
`idleTimeoutMillis = 30000`, `connectionTimeoutMillis = 2000`) only when no
pool is cached for the source name, and caches it; a second call with the
same source name returns the same pool instance and leaves the cache
unchanged regardless of the connection string; calls with different source
names never return the same pool instance (well-formedness of the cache is
preserved); `closeAll` ends every cached pool and clears the cache. -/
theorem connectionManager_pool_caching (cm : ConnManager) (n n2 s s2 : String) :
    (cm.pools.find? (fun e => e.1 == n) = none →
      getPool cm n s =
        (mkPool cm.nextId s,
         { pools := jsMapSet n (mkPool cm.nextId s) cm.pools, nextId := cm.nextId + 1 }))
    ∧ getPool (getPool cm n s).2 n s2 = ((getPool cm n s).1, (getPool cm n s).2)
    ∧ (ConnManagerWF cm → n ≠ n2 →
        ((getPool cm n s).1).id ≠ ((getPool (getPool cm n s).2 n2 s2).1).id)
    ∧ (ConnManagerWF cm → ConnManagerWF (getPool cm n s).2)
    ∧ (closeAll cm).1 = cm.pools.map (fun e => e.2)
    ∧ (closeAll cm).2.pools = [] := by
  refine ⟨?_, ?_, ?_, ?_, rfl, rfl⟩
  · intro h
    unfold getPool
    rw [h]
  · cases h : cm.pools.find? (fun e => e.1 == n) with
    | some e =>
      have h1 : getPool cm n s = (e.2, cm) := by unfold getPool; rw [h]
      rw [h1]
      unfold getPool
      rw [h]
    | none =>
      have h1 : getPool cm n s =
          (mkPool cm.nextId s,
           { pools := jsMapSet n (mkPool cm.nextId s) cm.pools,
             nextId := cm.nextId + 1 }) := by
        unfold getPool
        rw [h]
      rw [h1]
      unfold getPool
      rw [find?_jsMapSet_self]
  · intro hwf hne
    cases h : cm.pools.find? (fun e => e.1 == n) with
    | some e1 =>
      have h1 : getPool cm n s = (e1.2, cm) := by unfold getPool; rw [h]
      rw [h1]
      cases h2 : cm.pools.find? (fun e => e.1 == n2) with
      | some e2 =>
        have h2x : getPool cm n2 s2 = (e2.2, cm) := by unfold getPool; rw [h2]
        rw [h2x]
        have he1 : e1 ∈ cm.pools := List.mem_of_find?_eq_some h
        have he2 : e2 ∈ cm.pools := List.mem_of_find?_eq_some h2
        have hk1 : e1.1 = n := by have := List.find?_some h; simpa using this
        have hk2 : e2.1 = n2 := by have := List.find?_some h2; simpa using this
        have hne12 : e1 ≠ e2 := fun hh => hne (by rw [← hk1, hh, hk2])
        exact List.Pairwise.forall (fun _ _ hab => Ne.symm hab) hwf.2.2 he1 he2 hne12
      | none =>
        have h2x : getPool cm n2 s2 =
            (mkPool cm.nextId s2,
             { pools := jsMapSet n2 (mkPool cm.nextId s2) cm.pools,
               nextId := cm.nextId + 1 }) := by
          unfold getPool
          rw [h2]
        rw [h2x]
        exact Nat.ne_of_lt (hwf.2.1 e1 (List.mem_of_find?_eq_some h))
    | none =>
      have h1 : getPool cm n s =
          (mkPool cm.nextId s,
           { pools := jsMapSet n (mkPool cm.nextId s) cm.pools,
             nextId := cm.nextId + 1 }) := by
        unfold getPool
        rw [h]
      rw [h1]
      unfold getPool
      dsimp only
      rw [find?_jsMapSet_other n n2 _ hne cm.pools]
      cases h2 : cm.pools.find? (fun e => e.1 == n2) with
      | some e2 =>
        have hlt : e2.2.id < cm.nextId := hwf.2.1 e2 (List.mem_of_find?_eq_some h2)
        exact Ne.symm (Nat.ne_of_lt hlt)
      | none =>
        simp [mkPool]
  · intro hwf
    cases h : cm.pools.find? (fun e => e.1 == n) with
    | some e =>
      have h1 : (getPool cm n s).2 = cm := by unfold getPool; rw [h]
      rw [h1]
      exact hwf
    | none =>
      have h1 : (getPool cm n s).2 =
          { pools := jsMapSet n (mkPool cm.nextId s) cm.pools,
            nextId := cm.nextId + 1 } := by
        unfold getPool
        rw [h]
      rw [h1]
      have happ := jsMapSet_of_find?_none n (mkPool cm.nextId s) cm.pools h
      have hnotin : ∀ e ∈ cm.pools, e.1 ≠ n := by
        intro e he hh
        exact (List.find?_eq_none.mp h e he) (beq_iff_eq.mpr hh)
      refine ⟨?_, ?_, ?_⟩
      · show (jsMapSet n _ cm.pools).Pairwise (fun a b => a.1 ≠ b.1)
        rw [happ, List.pairwise_append]
        refine ⟨hwf.1, by simp, ?_⟩
        intro a ha b hb
        simp at hb
        subst hb
        exact hnotin a ha
      · show ∀ e ∈ jsMapSet n _ cm.pools, e.2.id < cm.nextId + 1
        rw [happ]
        intro e he
        rcases List.mem_append.mp he with hin | hin
        · exact Nat.lt_succ_of_lt (hwf.2.1 e hin)
        · simp at hin
          subst hin
          exact Nat.lt_succ_self _
      · show (jsMapSet n _ cm.pools).Pairwise (fun a b => a.2.id ≠ b.2.id)
        rw [happ, List.pairwise_append]
        refine ⟨hwf.2.2, by simp, ?_⟩
        intro a ha b hb
        simp at hb
        subst hb
        exact Nat.ne_of_lt (hwf.2.1 a ha)

/-- Witness for C8: from an empty manager, pools for two different source
names are distinct instances, and the first call creates the configured
pool. -/
theorem connectionManager_pool_caching_witness :
    emptyConnManager.pools.find? (fun e => e.1 == "db1") = none
    ∧ ConnManagerWF emptyConnManager
    ∧ ("db1" : String) ≠ "db2"
    ∧ ((getPool emptyConnManager "db1" "cs1").1).id
        ≠ ((getPool (getPool emptyConnManager "db1" "cs1").2 "db2" "cs2").1).id :=
  ⟨rfl, ⟨List.Pairwise.nil, fun e he => absurd he (List.not_mem_nil e), List.Pairwise.nil⟩,
   by decide,
   (connectionManager_pool_caching emptyConnManager "db1" "db2" "cs1" "cs2").2.2.1
     ⟨List.Pairwise.nil, fun e he => absurd he (List.not_mem_nil e), List.Pairwise.nil⟩
     (by decide)⟩

/-- Claim C9: argument validation coerces each supplied value to its
declared type: the numeric string `"10"` for the required number parameter
`limit` coerces to the number `10`; any scalar for a string parameter
coerces to its string form; boolean parameters accept true/false, 1/0,
yes/no, on/off and the empty string case-insensitively, with other truthy
strings coerced by boolean semantics; and a non-numeric string for a number
parameter makes validation fail (the NaN coercion error). -/
theorem argument_coercion :
    validateParams [{ name := "limit", type := "number", required := true, dflt := none }]
        [("limit", JsVal.vStr "10")] = .ok [("limit", JsVal.vNum 10)]
    ∧ (∀ v : JsVal, coerceArg "string" v = .ok (JsVal.vStr (jsToString v)))
    ∧ (∀ s, coerceArg "boolean" (JsVal.vStr s)
        = .ok (JsVal.vBool (zodBoolTransform (JsVal.vStr s))))
    ∧ coerceArg "boolean" (JsVal.vStr "TRUE") = .ok (JsVal.vBool true)
    ∧ coerceArg "boolean" (JsVal.vStr "Off") = .ok (JsVal.vBool false)
    ∧ coerceArg "boolean" (JsVal.vStr "") = .ok (JsVal.vBool false)
    ∧ coerceArg "boolean" (JsVal.vNum 1) = .ok (JsVal.vBool true)
    ∧ coerceArg "boolean" (JsVal.vNum 0) = .ok (JsVal.vBool false)
    ∧ coerceArg "boolean" (JsVal.vStr "maybe") = .ok (JsVal.vBool true)
    ∧ (∀ s, jsToNumber s = none →
        validateParams [{ name := "limit", type := "number", required := true, dflt := none }]
            [("limit", JsVal.vStr s)]
          = .error "Expected number, received nan") := by
  refine ⟨rfl, ?_, fun s => rfl, rfl, rfl, rfl, rfl, rfl, rfl, ?_⟩
  · intro v
    cases v <;> rfl
  · intro s hn
    simp [validateParams, coerceArg, manualCoerce, zodParse, List.find?, hn, Except.map]

/-- Witness for C9: the non-numeric string and the string-coercion clause at
concrete inputs. -/
theorem argument_coercion_witness :
    validateParams [{ name := "limit", type := "number", required := true, dflt := none }]
        [("limit", JsVal.vStr "abc")] = .error "Expected number, received nan"
    ∧ coerceArg "string" (JsVal.vNum 5) = .ok (JsVal.vStr "5") :=
  ⟨argument_coercion.2.2.2.2.2.2.2.2.2 "abc" rfl,
   argument_coercion.2.1 (JsVal.vNum 5)⟩

end Vibase
